import Mathlib

/-!
Verification of the response-assessment pipeline in `app/assess.py`
(repository `yokoyamatoyou/legalimage`).

The Python functions `load_rules_from_yaml`, `filter_rules_by_scene` and
`process_ai_response` operate on values produced by `json.loads` /
`yaml.safe_load`.  We embed those values as `JValue` (Python dicts are
insertion-ordered, hence association lists), and embed each function as a
total Lean function returning `Except PyError _`, where `PyError` stands
for the Python exceptions that can be raised (`AttributeError`,
`TypeError`, `ValueError`, `KeyError`).

External effects are passed in as parameters:
* `json.loads` (standard library, outside the repository) is represented
  by an `Option JValue` argument: `none` models a `json.JSONDecodeError`,
  `some v` models a successful parse producing `v`.
* the file read + `yaml.safe_load` inside `load_rules_from_yaml` is
  represented by an `Except PyError JValue` argument (its failure case
  models any exception raised while opening or parsing the file).
* `process_ai_response` receives the list of rule dicts produced by
  `load_rules_from_yaml()` as an explicit argument `all_rules`.

Floating-point payloads are outside the model; JSON integers are
unbounded `Int`, matching Python.  The float default `0.0` for
`confidence` is represented by the integer `0`.
-/

namespace LegalImage

/-- Embedding of the Python/JSON values handled by `assess.py`.
Python dicts preserve insertion order, so objects are ordered key/value
lists (`json.loads` keeps the last occurrence of a duplicated key, so in
payloads produced by it keys are distinct, but the model does not rely on
that). -/
inductive JValue : Type where
  | null : JValue
  | bool : Bool → JValue
  | int : Int → JValue
  | str : String → JValue
  | arr : List JValue → JValue
  | obj : List (String × JValue) → JValue
deriving Repr

/-- The Python exceptions that the embedded code can raise. -/
inductive PyError : Type where
  | attributeError : PyError
  | typeError : PyError
  | valueError : PyError
  | keyError : PyError
deriving Repr, DecidableEq

namespace JValue

/-- Key lookup in a Python dict (first occurrence; keys produced by
`json.loads` are unique). -/
def lookupKey : List (String × JValue) → String → Option JValue
  | [], _ => none
  | (k', v) :: rest, k => if k' = k then some v else lookupKey rest k

/-- `d[k] = v` on a Python dict: overwrites in place if the key exists,
otherwise appends at the end (insertion order, Python ≥ 3.7). -/
def setKey : List (String × JValue) → String → JValue → List (String × JValue)
  | [], k, v => [(k, v)]
  | (k', v') :: rest, k, v =>
    if k' = k then (k, v) :: rest else (k', v') :: setKey rest k v

/-- Python truthiness (`bool(x)`) on the embedded values. -/
def pyTruthy : JValue → Bool
  | .null => false
  | .bool b => b
  | .int n => n != 0
  | .str s => s != ""
  | .arr xs => !xs.isEmpty
  | .obj kvs => !kvs.isEmpty

/-- Python `x.get(k)` (default `None`): only dicts have `.get`. -/
def pyGet : JValue → String → Except PyError JValue
  | .obj kvs, k => .ok ((lookupKey kvs k).getD .null)
  | _, _ => .error .attributeError

/-- Python `x.get(k, d)`: only dicts have `.get`. -/
def pyGetD : JValue → String → JValue → Except PyError JValue
  | .obj kvs, k, d => .ok ((lookupKey kvs k).getD d)
  | _, _, _ => .error .attributeError

/-- Python `x[k]` with a string subscript: `KeyError` on a dict missing
the key, `TypeError` on anything that is not a dict. -/
def pyIndex : JValue → String → Except PyError JValue
  | .obj kvs, k =>
    match lookupKey kvs k with
    | some v => .ok v
    | none => .error .keyError
  | _, _ => .error .typeError

/-- Python iteration `for x in v`: lists yield their elements, strings
their one-character substrings, dicts their keys; other values raise
`TypeError`. -/
def pyIterList : JValue → Except PyError (List JValue)
  | .arr xs => .ok xs
  | .str s => .ok (s.toList.map fun c => .str (String.mk [c]))
  | .obj kvs => .ok (kvs.map fun kv => .str kv.1)
  | _ => .error .typeError

/-- `p` occurs as a contiguous substring of `s` (Python `p in s` on
strings; the empty string is a substring of every string). -/
def strSubstr (p s : String) : Bool :=
  decide (p.toList <:+: s.toList)

/-- Python `==` restricted to the scalar values compared by `assess.py`
(`tag in detection_cues` compares scene tags against cue entries).
Scalars follow Python: `True == 1`, `False == 0`, numbers by value,
strings by content, cross-type comparisons are `False`.  Containers are
compared `False` here: the pipeline only ever compares a scalar against
container elements, and Python's structural container equality is never
reached by any property below. -/
def pyEqScalar : JValue → JValue → Bool
  | .null, .null => true
  | .bool a, .bool b => a == b
  | .bool a, .int b => (if a then (1 : Int) else 0) == b
  | .int a, .bool b => a == (if b then (1 : Int) else 0)
  | .int a, .int b => a == b
  | .str a, .str b => a == b
  | _, _ => false

/-- Python `item in container`: substring test on strings (`TypeError`
unless `item` is a string), elementwise `==` on lists, key membership on
dicts (non-string hashable scalars are simply absent; unhashable
containers raise `TypeError`), `TypeError` on non-containers. -/
def pyContains : JValue → JValue → Except PyError Bool
  | .str s, item =>
    match item with
    | .str p => .ok (strSubstr p s)
    | _ => .error .typeError
  | .arr xs, item => .ok (xs.any fun x => pyEqScalar item x)
  | .obj kvs, item =>
    match item with
    | .str k => .ok (kvs.any fun kv => kv.1 == k)
    | .arr _ => .error .typeError
    | .obj _ => .error .typeError
    | _ => .ok false
  | _, _ => .error .typeError

end JValue

/-- Python `any(f x for x in xs)`: lazy left-to-right evaluation, first
`True` wins, an exception raised before that propagates. -/
def pyAnyM (f : α → Except PyError Bool) : List α → Except PyError Bool
  | [] => .ok false
  | x :: rest =>
    match f x with
    | .error e => .error e
    | .ok true => .ok true
    | .ok false => pyAnyM f rest

/-- A Python `for` loop building a list of results, one per element,
aborting at the first exception (used for the list comprehension of
line 89 and the scoring loop of lines 95-102). -/
def mapExcept (f : α → Except PyError β) : List α → Except PyError (List β)
  | [] => .ok []
  | x :: xs =>
    match f x with
    | .error e => .error e
    | .ok y =>
      match mapExcept f xs with
      | .error e => .error e
      | .ok ys => .ok (y :: ys)

open JValue

/-- ASCII whitespace stripped by Python's `int(str)` conversion. -/
def isPySpace (c : Char) : Bool :=
  c == ' ' || c == '\t' || c == '\n' || c == '\r' || c == '\x0b' || c == '\x0c'

/-- Python `int(s)` on strings: surrounding whitespace is stripped, then
an optional sign followed by at least one decimal digit; anything else
raises `ValueError`.  (Python additionally accepts underscores between
digits and non-ASCII spaces/digits; no property below depends on those
extensions.) -/
def pyStrToInt (s : String) : Option Int :=
  let cs := ((s.toList.dropWhile isPySpace).reverse.dropWhile isPySpace).reverse
  let signDigits : Int × List Char :=
    match cs with
    | '+' :: rest => (1, rest)
    | '-' :: rest => (-1, rest)
    | _ => (1, cs)
  if signDigits.2 ≠ [] ∧ signDigits.2.all Char.isDigit then
    some (signDigits.1 *
      (signDigits.2.foldl (fun acc c => acc * 10 + (c.toNat - 48)) 0 : Nat))
  else
    none

/-- Python `int(x)` on the embedded values: identity on ints, `True ↦ 1`
`False ↦ 0` on bools, decimal parsing on strings (`ValueError` when the
string is not an integer literal), `TypeError` on `None`, lists and
dicts. -/
def pyToInt : JValue → Except PyError Int
  | .int n => .ok n
  | .bool b => .ok (if b then 1 else 0)
  | .str s =>
    match pyStrToInt s with
    | some n => .ok n
    | none => .error .valueError
  | _ => .error .typeError

/-- `app/assess.py`, lines 16–22 (the body of `load_rules_from_yaml`).
The file read plus `yaml.safe_load` is passed in as `readResult`; the
`except Exception` arm catches any failure of that read as well as the
`data.get(\x7b'rules'\x7d)` attribute access on a non-dict document, and
returns the empty list (the `print` diagnostic has no semantic effect
and is not modelled). -/
def load_rules_from_yaml (readResult : Except PyError JValue) : JValue :=
  match readResult with
  | .error _ => .arr []
  | .ok data =>
    match pyGetD data "rules" (.arr []) with
    | .ok v => v
    | .error _ => .arr []

/-- `app/assess.py`, lines 38–45: the per-rule test of
`filter_rules_by_scene`.  `rule_domain = rule.get('domain', '')`, then
the pack test `any(pack in rule_domain for pack in selected_rule_packs)`,
and only if that is false the cue test
`scene_tags and any(tag in rule.get('detection_cues', []) for tag in scene_tags)`.
`scene_tags` is kept as a `JValue` because `process_ai_response` passes
`data["scene_tags"]`, which the payload may set to any value. -/
def ruleMatches (scene_tags : JValue) (selected_rule_packs : List String)
    (rule : JValue) : Except PyError Bool :=
  match pyGetD rule "domain" (.str "") with
  | .error e => .error e
  | .ok rule_domain =>
    match pyAnyM (fun pack => pyContains rule_domain (.str pack)) selected_rule_packs with
    | .error e => .error e
    | .ok true => .ok true
    | .ok false =>
      if pyTruthy scene_tags then
        match pyIterList scene_tags with
        | .error e => .error e
        | .ok tags =>
          match pyGetD rule "detection_cues" (.arr []) with
          | .error e => .error e
          | .ok cues => pyAnyM (fun tag => pyContains cues tag) tags
      else
        .ok false

/-- `app/assess.py`, lines 24–47 (`filter_rules_by_scene`): one pass over
`rules` in order, appending each rule that passes `ruleMatches`; an
exception raised while testing a rule aborts the whole call. -/
def filter_rules_by_scene (rules : List JValue) (scene_tags : JValue)
    (selected_rule_packs : List String) : Except PyError (List JValue) :=
  match rules with
  | [] => .ok []
  | r :: rest =>
    match ruleMatches scene_tags selected_rule_packs r with
    | .error e => .error e
    | .ok b =>
      match filter_rules_by_scene rest scene_tags selected_rule_packs with
      | .error e => .error e
      | .ok tail => .ok (if b then r :: tail else tail)

/-- `app/assess.py`, lines 96–101: reading and coercing the two risk
components of one finding.
`components = item.get("risk_score_components", \x7b\x7d)`,
`severity = components.get("severity", 0)`,
`likelihood = components.get("likelihood", 0)`, then the coercions
`int(severity)` and `int(likelihood)` of line 101, in Python's
evaluation order.  A missing component defaults to `0`. -/
def componentsInt (item : JValue) : Except PyError (Int × Int) :=
  match pyGetD item "risk_score_components" (.obj []) with
  | .error e => .error e
  | .ok components =>
    match pyGetD components "severity" (.int 0) with
    | .error e => .error e
    | .ok severity =>
      match pyGetD components "likelihood" (.int 0) with
      | .error e => .error e
      | .ok likelihood =>
        match pyToInt severity with
        | .error e => .error e
        | .ok s =>
          match pyToInt likelihood with
          | .error e => .error e
          | .ok l => .ok (s, l)

/-- `app/assess.py`, lines 95–102: the body of the scoring loop,
`item["risk_score"] = int(severity) * int(likelihood) * 10`.  The
in-place mutation of the finding dict is modelled functionally; the
non-dict fallback is unreachable because `componentsInt` already raises
`AttributeError` on `item.get` for a non-dict `item`. -/
def scoreFinding (item : JValue) : Except PyError JValue :=
  match componentsInt item with
  | .error e => .error e
  | .ok sl =>
    match item with
    | .obj kvs => .ok (.obj (setKey kvs "risk_score" (.int (sl.1 * sl.2 * 10))))
    | _ => .error .attributeError

/-- The sort key of line 105, `lambda x: x.get("risk_score", 0)`.  After
the scoring loop every finding is a dict carrying an integer
`risk_score`, so Python's comparison of the keys is integer comparison;
the non-dict / non-int fallbacks (unreachable on the sorted list) are
collapsed to the default `0`. -/
def riskKey (f : JValue) : Int :=
  match f with
  | .obj kvs =>
    match lookupKey kvs "risk_score" with
    | some (.int n) => n
    | _ => 0
  | _ => 0

/-- The descending comparison used on line 105: `a` may precede `b`
exactly when `b`'s risk score is not larger. -/
def riskGE (a b : JValue) : Prop := riskKey b ≤ riskKey a

instance : DecidableRel riskGE := fun _ _ => Int.decLe _ _

instance : IsTotal JValue riskGE := ⟨fun a b => le_total (riskKey b) (riskKey a)⟩

instance : IsTrans JValue riskGE := ⟨fun _ _ _ h1 h2 => le_trans h2 h1⟩

/-- `sorted(findings, key=lambda x: x.get("risk_score", 0), reverse=True)`
(line 105).  Python's `sorted` is a stable sort; with `reverse=True` it
produces the unique stable descending reordering, which is what
`List.insertionSort` computes for the total transitive relation
`riskGE`. -/
def sortFindings (findings : List JValue) : List JValue :=
  findings.insertionSort riskGE

/-- The dict returned on parse failure (`app/assess.py`, line 68). -/
def parseErrorObj (json_string : String) : JValue :=
  .obj [("error", .str "AIの応答が有効なJSON形式ではありません。"),
        ("raw_response", .str json_string)]

/-- `app/assess.py`, lines 73–83: extraction of
`scene_analysis = data.get("scene_analysis", \x7b\x7d)` and the three
derived values `data["scene_tags"]`, `data["risk_context"]`,
`data["confidence"]`.  When `scene_analysis` is absent or falsy the
backward-compatibility branch uses `scene_tags or []` (the caller's
fallback list), `""` and `0.0`. -/
def sceneTriple (kvs : List (String × JValue)) (scene_tags : List String) :
    Except PyError (JValue × JValue × JValue) :=
  let scene_analysis := (lookupKey kvs "scene_analysis").getD (.obj [])
  if pyTruthy scene_analysis then
    match pyGetD scene_analysis "scene_tags" (.arr []) with
    | .error e => .error e
    | .ok st =>
      match pyGetD scene_analysis "risk_context" (.str "") with
      | .error e => .error e
      | .ok rc =>
        match pyGetD scene_analysis "confidence" (.int 0) with
        | .error e => .error e
        | .ok cf => .ok (st, rc, cf)
  else
    .ok (.arr (scene_tags.map JValue.str), .str "", .int 0)

/-- `app/assess.py`, lines 87–91: the value stored in
`data["applied_rules"]`.  When `selected_rule_packs or data["scene_tags"]`
is truthy, the loaded rules are filtered (`selected_rule_packs or []`
supplies the packs) and each filtered rule is subscripted with
`rule["rule_id"]` (a `KeyError` on a rule without that key propagates);
otherwise the empty list. -/
def appliedRules (st : JValue) (selected_rule_packs : List String)
    (all_rules : List JValue) : Except PyError JValue :=
  if !selected_rule_packs.isEmpty || pyTruthy st then
    match filter_rules_by_scene all_rules st selected_rule_packs with
    | .error e => .error e
    | .ok filtered =>
      match mapExcept (fun rule => pyIndex rule "rule_id") filtered with
      | .error e => .error e
      | .ok applied => .ok (.arr applied)
  else
    .ok (.arr [])

/-- The payload dict after the assignments of lines 76–78 (or 81–83) and
89 (or 91): `data["scene_tags"]`, `data["risk_context"]`,
`data["confidence"]`, `data["applied_rules"]`, in execution order. -/
def enrichedKvs (kvs : List (String × JValue)) (trip : JValue × JValue × JValue)
    (applied : JValue) : List (String × JValue) :=
  setKey (setKey (setKey (setKey kvs "scene_tags" trip.1)
    "risk_context" trip.2.1) "confidence" trip.2.2) "applied_rules" applied

/-- `app/assess.py`, lines 49–108 (`process_ai_response`).
`parsed` is the outcome of `json.loads(json_string)` (`none` models
`json.JSONDecodeError`, the only exception caught by the `try` on lines
63–68).  The optional parameters `scene_tags` / `selected_rule_packs`
default to `None` in Python and are used only through `x or []` and
truthiness tests, under which `None` and `[]` are interchangeable, so
they are taken as plain lists.  `all_rules` is the list of rule dicts
produced by `load_rules_from_yaml()` on line 86.  An `.error` result
models an uncaught Python exception escaping the function. -/
def process_ai_response (parsed : Option JValue) (json_string : String)
    (scene_tags : List String) (selected_rule_packs : List String)
    (all_rules : List JValue) : Except PyError JValue :=
  match parsed with
  | none => .ok (parseErrorObj json_string)
  | some (.obj kvs) =>
    -- line 70: `if data.get("error"):` — truthiness, not key presence
    if pyTruthy ((lookupKey kvs "error").getD .null) then
      .ok (.obj kvs)
    else
      match sceneTriple kvs scene_tags with
      | .error e => .error e
      | .ok trip =>
        match appliedRules trip.1 selected_rule_packs all_rules with
        | .error e => .error e
        | .ok applied =>
          -- lines 94–102: scoring loop over `data.get("findings", [])`
          match pyIterList ((lookupKey (enrichedKvs kvs trip applied)
              "findings").getD (.arr [])) with
          | .error e => .error e
          | .ok items =>
            match mapExcept scoreFinding items with
            | .error e => .error e
            | .ok scored =>
              -- lines 105–106: stable descending sort, `data["findings"] = ...`
              .ok (.obj (setKey (enrichedKvs kvs trip applied)
                "findings" (.arr (sortFindings scored))))
  | some _ =>
    -- line 70 on a non-dict payload: `data.get` raises `AttributeError`
    .error .attributeError

/-- Field access on a result or payload dict: `none` when the value is
not a dict or lacks the key. -/
def getField : JValue → String → Option JValue
  | .obj kvs, k => lookupKey kvs k
  | _, _ => none

/-- The findings sequence of a result dict (empty when absent or not a
list). -/
def resultFindings (r : JValue) : List JValue :=
  match r with
  | .obj kvs =>
    match lookupKey kvs "findings" with
    | some (.arr fs) => fs
    | _ => []
  | _ => []

/-!  ### Basic lemmas about the dict model  -/

theorem lookupKey_setKey_same (m : List (String × JValue)) (k : String)
    (v : JValue) : lookupKey (setKey m k v) k = some v := by
  induction m with
  | nil => simp [setKey, lookupKey]
  | cons kv rest ih =>
    obtain ⟨a, b⟩ := kv
    by_cases h : a = k
    · simp [setKey, h, lookupKey]
    · simp [setKey, h, lookupKey, ih]

theorem lookupKey_setKey_ne (m : List (String × JValue)) {k' k : String}
    (v : JValue) (h : k' ≠ k) :
    lookupKey (setKey m k' v) k = lookupKey m k := by
  induction m with
  | nil => simp [setKey, lookupKey, h]
  | cons kv rest ih =>
    obtain ⟨a, b⟩ := kv
    by_cases ha : a = k'
    · subst ha
      simp [setKey, lookupKey, h]
    · simp [setKey, ha, lookupKey, ih]

theorem lookupKey_enrichedKvs (kvs : List (String × JValue))
    (trip : JValue × JValue × JValue) (applied : JValue) {k : String}
    (h1 : k ≠ "scene_tags") (h2 : k ≠ "risk_context")
    (h3 : k ≠ "confidence") (h4 : k ≠ "applied_rules") :
    lookupKey (enrichedKvs kvs trip applied) k = lookupKey kvs k := by
  unfold enrichedKvs
  rw [lookupKey_setKey_ne _ _ (Ne.symm h4), lookupKey_setKey_ne _ _ (Ne.symm h3),
    lookupKey_setKey_ne _ _ (Ne.symm h2), lookupKey_setKey_ne _ _ (Ne.symm h1)]

/-!  ### Lemmas about `mapExcept`  -/

theorem mapExcept_ok_cons {f : α → Except PyError β} {x : α} {xs : List α}
    {ys : List β} (h : mapExcept f (x :: xs) = .ok ys) :
    ∃ y ts, f x = .ok y ∧ mapExcept f xs = .ok ts ∧ ys = y :: ts := by
  cases hx : f x with
  | error e => simp [mapExcept, hx] at h
  | ok y =>
    cases hts : mapExcept f xs with
    | error e => simp [mapExcept, hx, hts] at h
    | ok ts =>
      simp only [mapExcept, hx, hts, Except.ok.injEq] at h
      exact ⟨y, ts, rfl, rfl, h.symm⟩

theorem mapExcept_ok_forall {f : α → Except PyError β} :
    ∀ {xs : List α} {ys : List β}, mapExcept f xs = .ok ys →
      ∀ x ∈ xs, ∃ y, f x = .ok y := by
  intro xs
  induction xs with
  | nil => intro ys _ x hx; cases hx
  | cons a as ih =>
    intro ys h x hx
    obtain ⟨y, ts, hy, hts, _⟩ := mapExcept_ok_cons h
    rcases List.mem_cons.mp hx with hx | hx
    · subst hx; exact ⟨y, hy⟩
    · exact ih hts x hx

theorem mapExcept_ok_mem {f : α → Except PyError β} :
    ∀ {xs : List α} {ys : List β}, mapExcept f xs = .ok ys →
      ∀ y ∈ ys, ∃ x ∈ xs, f x = .ok y := by
  intro xs
  induction xs with
  | nil =>
    intro ys h y hy
    simp only [mapExcept, Except.ok.injEq] at h
    subst h
    cases hy
  | cons a as ih =>
    intro ys h y hy
    obtain ⟨z, ts, hz, hts, rfl⟩ := mapExcept_ok_cons h
    rcases List.mem_cons.mp hy with hy | hy
    · subst hy; exact ⟨a, List.mem_cons_self a as, hz⟩
    · obtain ⟨x, hx, hfx⟩ := ih hts y hy
      exact ⟨x, List.mem_cons_of_mem a hx, hfx⟩

/-!  ### Lemmas about the stable descending sort  -/

theorem sortFindings_pairwise (l : List JValue) :
    (sortFindings l).Pairwise riskGE :=
  List.sorted_insertionSort riskGE l

theorem mem_sortFindings {f : JValue} {l : List JValue} :
    f ∈ sortFindings l ↔ f ∈ l :=
  List.mem_insertionSort riskGE

theorem filter_orderedInsert_pos {k : Int} {x : JValue} (m : List JValue)
    (hx : riskKey x = k) :
    (List.orderedInsert riskGE x m).filter (fun f => riskKey f == k) =
      x :: m.filter (fun f => riskKey f == k) := by
  induction m with
  | nil => simp [List.orderedInsert, hx]
  | cons b m ih =>
    by_cases hrb : riskGE x b
    · simp only [List.orderedInsert, if_pos hrb]
      simp [hx]
    · have hb : ¬(riskKey b == k) = true := by
        simp only [beq_iff_eq]
        intro hbk
        exact hrb (by simp [riskGE, hbk, hx])
      simp only [List.orderedInsert, if_neg hrb, List.filter_cons,
        Bool.not_eq_true] at *
      simp only [hb] at *
      simpa [hb] using ih

theorem filter_orderedInsert_neg {k : Int} {x : JValue} (m : List JValue)
    (hx : riskKey x ≠ k) :
    (List.orderedInsert riskGE x m).filter (fun f => riskKey f == k) =
      m.filter (fun f => riskKey f == k) := by
  induction m with
  | nil => simp [List.orderedInsert, hx]
  | cons b m ih =>
    by_cases hrb : riskGE x b
    · simp only [List.orderedInsert, if_pos hrb]
      simp [hx]
    · simp only [List.orderedInsert, if_neg hrb, List.filter_cons] at *
      by_cases hb : (riskKey b == k) = true
      · simp [hb, ih]
      · simp [hb, ih]

/-- Stability of the sort of line 105: for every risk score, the
findings carrying that score appear in the same relative order before
and after sorting. -/
theorem filter_sortFindings (k : Int) (l : List JValue) :
    (sortFindings l).filter (fun f => riskKey f == k) =
      l.filter (fun f => riskKey f == k) := by
  induction l with
  | nil => rfl
  | cons x l ih =>
    show (List.orderedInsert riskGE x (sortFindings l)).filter _ = _
    by_cases hx : riskKey x = k
    · rw [filter_orderedInsert_pos _ hx, ih, List.filter_cons,
        if_pos (by simp [hx])]
    · rw [filter_orderedInsert_neg _ hx, ih, List.filter_cons,
        if_neg (by simp [hx])]

/-!  ### Lemmas about `pyAnyM`  -/

theorem pyAnyM_ok_of_all {f : α → Except PyError Bool} {g : α → Bool} :
    ∀ {xs : List α}, (∀ x ∈ xs, f x = .ok (g x)) →
      pyAnyM f xs = .ok (xs.any g) := by
  intro xs
  induction xs with
  | nil => intro _; rfl
  | cons a as ih =>
    intro h
    have ha := h a (List.mem_cons_self a as)
    simp only [pyAnyM, ha, List.any_cons]
    cases hg : g a
    · simpa [hg] using ih (fun x hx => h x (List.mem_cons_of_mem a hx))
    · simp [hg]

theorem list_any_map (f : α → β) (p : β → Bool) :
    ∀ l : List α, (l.map f).any p = l.any fun a => p (f a)
  | [] => rfl
  | a :: as => by
    simp only [List.map_cons, List.any_cons, list_any_map f p as]

/-!  ### Inversion of the normal-processing path  -/

theorem lookupKey_enrichedKvs_sceneTags (kvs : List (String × JValue))
    (trip : JValue × JValue × JValue) (applied : JValue) :
    lookupKey (enrichedKvs kvs trip applied) "scene_tags" = some trip.1 := by
  unfold enrichedKvs
  rw [lookupKey_setKey_ne _ _ (by decide), lookupKey_setKey_ne _ _ (by decide),
    lookupKey_setKey_ne _ _ (by decide), lookupKey_setKey_same]

theorem lookupKey_enrichedKvs_appliedRules (kvs : List (String × JValue))
    (trip : JValue × JValue × JValue) (applied : JValue) :
    lookupKey (enrichedKvs kvs trip applied) "applied_rules" = some applied := by
  unfold enrichedKvs
  rw [lookupKey_setKey_same]

/-- Inversion of the normal-processing path of `process_ai_response`:
when the payload is a dict whose `error` entry is falsy, a successful
result is exactly the enriched payload with its findings scored and
stably sorted. -/
theorem process_ok_inversion {kvs : List (String × JValue)} {js : String}
    {tags packs : List String} {rules : List JValue} {r : JValue}
    (he : pyTruthy ((lookupKey kvs "error").getD .null) = false)
    (h : process_ai_response (some (.obj kvs)) js tags packs rules = .ok r) :
    ∃ trip applied items scored,
      sceneTriple kvs tags = .ok trip ∧
      appliedRules trip.1 packs rules = .ok applied ∧
      pyIterList ((lookupKey (enrichedKvs kvs trip applied) "findings").getD
        (.arr [])) = .ok items ∧
      mapExcept scoreFinding items = .ok scored ∧
      r = .obj (setKey (enrichedKvs kvs trip applied) "findings"
        (.arr (sortFindings scored))) := by
  simp only [process_ai_response, he, Bool.false_eq_true, if_false] at h
  cases h1 : sceneTriple kvs tags with
  | error e => simp only [h1] at h; exact Except.noConfusion h
  | ok trip =>
    simp only [h1] at h
    cases h2 : appliedRules trip.1 packs rules with
    | error e => simp only [h2] at h; exact Except.noConfusion h
    | ok applied =>
      simp only [h2] at h
      cases h3 : pyIterList ((lookupKey (enrichedKvs kvs trip applied)
          "findings").getD (.arr [])) with
      | error e => simp only [h3] at h; exact Except.noConfusion h
      | ok items =>
        simp only [h3] at h
        cases h4 : mapExcept scoreFinding items with
        | error e => simp only [h4] at h; exact Except.noConfusion h
        | ok scored =>
          simp only [h4, Except.ok.injEq] at h
          exact ⟨trip, applied, items, scored, rfl, h2, h3, h4, h.symm⟩

/-!  ### Claims  -/

/-- Claim C2, counterexample.  The claim says that every parsed object
containing an `error` key is returned unchanged.  The payload
`{"error": null}` contains an `error` key, but line 70 tests
`data.get("error")` for truthiness, `None` is falsy, so the payload is
not returned unchanged: processing continues and enriches it. -/
theorem C2_counterexample :
    process_ai_response (some (.obj [("error", JValue.null)])) "s" [] [] [] ≠
      .ok (.obj [("error", JValue.null)]) := by
  intro h
  have h2 : Except.ok (ε := PyError) (JValue.obj
      [("error", JValue.null), ("scene_tags", JValue.arr []),
       ("risk_context", JValue.str ""), ("confidence", JValue.int 0),
       ("applied_rules", JValue.arr []), ("findings", JValue.arr [])]) =
      .ok (.obj [("error", JValue.null)]) := h
  injection h2 with h3
  injection h3 with h4
  simp at h4

/-- Claim C2 (amended): a parsed object whose `error` entry is truthy is
returned by `process_ai_response` unchanged — no scene-analysis
extraction, no rule filtering, no scoring, no sorting, no added or
modified keys.  (The code's short-circuit on line 70 tests the value's
truthiness, not the key's presence.) -/
theorem C2_truthy_error_passthrough (kvs : List (String × JValue))
    (js : String) (tags packs : List String) (rules : List JValue)
    (he : pyTruthy ((lookupKey kvs "error").getD .null) = true) :
    process_ai_response (some (.obj kvs)) js tags packs rules =
      .ok (.obj kvs) := by
  simp [process_ai_response, he]

/-- Witness for C2's amended theorem at the payload
`{"error": "APIキーが無効です"}` (the repository's own error-case test
input, lines 162–165). -/
theorem C2_witness :
    process_ai_response (some (.obj [("error", JValue.str "APIキーが無効です")]))
      "s" [] [] [] = .ok (.obj [("error", JValue.str "APIキーが無効です")]) :=
  C2_truthy_error_passthrough _ _ _ _ _ (by decide)

/-- Claim C7: on a parse failure (`parsed = none`, i.e. `json.loads`
raised `JSONDecodeError`), `process_ai_response` returns — without
raising — a dict with an `error` entry and a `raw_response` entry whose
value is exactly the input string. -/
theorem C7_parse_failure (js : String) (tags packs : List String)
    (rules : List JValue) :
    process_ai_response none js tags packs rules = .ok (parseErrorObj js) ∧
    getField (parseErrorObj js) "error" =
      some (.str "AIの応答が有効なJSON形式ではありません。") ∧
    getField (parseErrorObj js) "raw_response" = some (.str js) :=
  ⟨rfl, rfl, rfl⟩

/-- Claim C8: every read or parse failure of the rule source (any
exception from `open` / `yaml.safe_load`, modelled by the `.error`
argument) makes `load_rules_from_yaml` return the empty list, and — the
function being total — no exception escapes; the same holds for the
`AttributeError` raised inside the `try` when the parsed document is
`None` (an empty YAML file). -/
theorem C8_load_rules_fail_open (e : PyError) :
    load_rules_from_yaml (.error e) = .arr [] ∧
    load_rules_from_yaml (.ok .null) = .arr [] :=
  ⟨rfl, rfl⟩

/-- Claim C9: a payload that is valid JSON but not an object escapes the
error-shaping contract: `json.loads("[]")` yields a list, `data.get` on
line 70 raises `AttributeError`, and the exception propagates out of
`process_ai_response` (only `json.JSONDecodeError` is caught, on line
66). -/
theorem C9_non_object_payload_raises :
    process_ai_response (some (.arr [])) "[]" [] [] [] =
      .error .attributeError :=
  rfl

/-- Claim C1, counterexample.  The claim says a result the consumer
classifies as an error (`error` key present) never also carries success
fields such as `findings`, except for a verbatim passthrough.  The
payload `{"error": ""}` has the `error` key, but the value is falsy, so
line 70 does not short-circuit: the result keeps the `error` key, gains
`findings` (and the other success fields), and is not the verbatim
payload. -/
theorem C1_counterexample :
    process_ai_response (some (.obj [("error", JValue.str "")])) "s" [] [] [] =
      .ok (.obj [("error", JValue.str ""), ("scene_tags", JValue.arr []),
        ("risk_context", JValue.str ""), ("confidence", JValue.int 0),
        ("applied_rules", JValue.arr []), ("findings", JValue.arr [])]) ∧
    (getField (.obj [("error", JValue.str ""), ("scene_tags", JValue.arr []),
        ("risk_context", JValue.str ""), ("confidence", JValue.int 0),
        ("applied_rules", JValue.arr []), ("findings", JValue.arr [])])
      "error").isSome = true ∧
    (getField (.obj [("error", JValue.str ""), ("scene_tags", JValue.arr []),
        ("risk_context", JValue.str ""), ("confidence", JValue.int 0),
        ("applied_rules", JValue.arr []), ("findings", JValue.arr [])])
      "findings").isSome = true ∧
    JValue.obj [("error", JValue.str ""), ("scene_tags", JValue.arr []),
        ("risk_context", JValue.str ""), ("confidence", JValue.int 0),
        ("applied_rules", JValue.arr []), ("findings", JValue.arr [])] ≠
      JValue.obj [("error", JValue.str "")] := by
  refine ⟨rfl, rfl, rfl, ?_⟩
  intro h
  injection h with h2
  simp at h2

/-- Claim C1 (amended): the two result shapes are distinguished by the
truthiness of the `error` value, not by mere key presence.  Every
successful return of `process_ai_response` is exactly one of: (a) the
parse-failure object, which carries no `findings`; (b) the verbatim
passthrough of a payload whose `error` value is truthy; (c) a normally
processed result, whose `error` entry — if any, copied untouched from
the payload — is falsy, and which carries the success fields
(`findings`, `scene_tags`, `applied_rules`).  A payload with a falsy
`error` value (e.g. `{"error": ""}`) yields shape (c), which a
presence-based consumer would misclassify — hence the amendment. -/
theorem C1_truthy_error_dichotomy (parsed : Option JValue) (js : String)
    (tags packs : List String) (rules : List JValue) (r : JValue)
    (h : process_ai_response parsed js tags packs rules = .ok r) :
    (parsed = none ∧ r = parseErrorObj js ∧ getField r "findings" = none) ∨
    (∃ kvs, parsed = some (.obj kvs) ∧
      pyTruthy ((lookupKey kvs "error").getD .null) = true ∧ r = .obj kvs) ∨
    (∃ kvs, parsed = some (.obj kvs) ∧
      pyTruthy ((lookupKey kvs "error").getD .null) = false ∧
      pyTruthy ((getField r "error").getD .null) = false ∧
      (getField r "findings").isSome = true ∧
      (getField r "scene_tags").isSome = true ∧
      (getField r "applied_rules").isSome = true) := by
  cases parsed with
  | none =>
    left
    simp only [process_ai_response, Except.ok.injEq] at h
    exact ⟨rfl, h.symm, by subst h; rfl⟩
  | some data =>
    cases data with
    | obj kvs =>
      cases he : pyTruthy ((lookupKey kvs "error").getD .null) with
      | true =>
        right; left
        simp only [process_ai_response, he, if_true, Except.ok.injEq] at h
        exact ⟨kvs, rfl, he, h.symm⟩
      | false =>
        right; right
        obtain ⟨trip, applied, items, scored, _, _, _, _, hr⟩ :=
          process_ok_inversion he h
        subst hr
        refine ⟨kvs, rfl, he, ?_, ?_, ?_, ?_⟩
        · show pyTruthy ((lookupKey _ "error").getD .null) = false
          rw [lookupKey_setKey_ne _ _ (by decide),
            lookupKey_enrichedKvs _ _ _ (by decide) (by decide) (by decide)
              (by decide)]
          exact he
        · show (lookupKey _ "findings").isSome = true
          rw [lookupKey_setKey_same]
          rfl
        · show (lookupKey _ "scene_tags").isSome = true
          rw [lookupKey_setKey_ne _ _ (by decide),
            lookupKey_enrichedKvs_sceneTags]
          rfl
        · show (lookupKey _ "applied_rules").isSome = true
          rw [lookupKey_setKey_ne _ _ (by decide),
            lookupKey_enrichedKvs_appliedRules]
          rfl
    | null => exact Except.noConfusion h
    | bool b => exact Except.noConfusion h
    | int n => exact Except.noConfusion h
    | str s => exact Except.noConfusion h
    | arr xs => exact Except.noConfusion h

/-- Witness for C1's amended theorem at the payload
`{"error": "boom"}` (a truthy error value: shape (b) applies). -/
theorem C1_witness :
    (some (JValue.obj [("error", JValue.str "boom")]) = none ∧
      JValue.obj [("error", JValue.str "boom")] = parseErrorObj "s" ∧
      getField (JValue.obj [("error", JValue.str "boom")]) "findings" = none) ∨
    (∃ kvs, some (JValue.obj [("error", JValue.str "boom")]) = some (.obj kvs) ∧
      pyTruthy ((lookupKey kvs "error").getD .null) = true ∧
      JValue.obj [("error", JValue.str "boom")] = .obj kvs) ∨
    (∃ kvs, some (JValue.obj [("error", JValue.str "boom")]) = some (.obj kvs) ∧
      pyTruthy ((lookupKey kvs "error").getD .null) = false ∧
      pyTruthy ((getField (JValue.obj [("error", JValue.str "boom")])
        "error").getD .null) = false ∧
      (getField (JValue.obj [("error", JValue.str "boom")])
        "findings").isSome = true ∧
      (getField (JValue.obj [("error", JValue.str "boom")])
        "scene_tags").isSome = true ∧
      (getField (JValue.obj [("error", JValue.str "boom")])
        "applied_rules").isSome = true) :=
  C1_truthy_error_dichotomy
    (some (JValue.obj [("error", JValue.str "boom")])) "s" [] [] []
    (JValue.obj [("error", JValue.str "boom")]) rfl

/-- Claim C6, counterexample.  The claim says that when the payload has
no `suggestions` field, the result's `suggestions` is the empty
sequence.  Processing the empty payload `{}` succeeds, but the returned
dict has no `suggestions` entry at all — the code never writes that key
(the consumer only observes an empty list because it reads with
`data.get("suggestions", [])`, `app/main.py` line 291). -/
theorem C6_counterexample :
    process_ai_response (some (.obj [])) "s" [] [] [] =
      .ok (.obj [("scene_tags", JValue.arr []), ("risk_context", JValue.str ""),
        ("confidence", JValue.int 0), ("applied_rules", JValue.arr []),
        ("findings", JValue.arr [])]) ∧
    getField (.obj [("scene_tags", JValue.arr []), ("risk_context", JValue.str ""),
        ("confidence", JValue.int 0), ("applied_rules", JValue.arr []),
        ("findings", JValue.arr [])]) "suggestions" = none :=
  ⟨rfl, rfl⟩

/-- Claim C6 (amended): the `suggestions` field is passed through from
the payload exactly as it is — same value when present, and absent from
the result when absent from the payload (no empty-sequence default is
materialized in the returned dict). -/
theorem C6_suggestions_passthrough (d : JValue) (js : String)
    (tags packs : List String) (rules : List JValue) (r : JValue)
    (h : process_ai_response (some d) js tags packs rules = .ok r) :
    getField r "suggestions" = getField d "suggestions" := by
  cases d with
  | obj kvs =>
    cases he : pyTruthy ((lookupKey kvs "error").getD .null) with
    | true =>
      simp only [process_ai_response, he, if_true, Except.ok.injEq] at h
      rw [← h]
    | false =>
      obtain ⟨trip, applied, items, scored, _, _, _, _, hr⟩ :=
        process_ok_inversion he h
      subst hr
      show (lookupKey _ "suggestions") = _
      rw [lookupKey_setKey_ne _ _ (by decide),
        lookupKey_enrichedKvs _ _ _ (by decide) (by decide) (by decide)
          (by decide)]
      rfl
  | null => exact Except.noConfusion h
  | bool b => exact Except.noConfusion h
  | int n => exact Except.noConfusion h
  | str s => exact Except.noConfusion h
  | arr xs => exact Except.noConfusion h

/-- Witness for C6's amended theorem: a payload carrying
`suggestions: ["s1"]` keeps exactly that value in the result. -/
theorem C6_witness :
    getField (.obj [("suggestions", JValue.arr [JValue.str "s1"]),
        ("scene_tags", JValue.arr []), ("risk_context", JValue.str ""),
        ("confidence", JValue.int 0), ("applied_rules", JValue.arr []),
        ("findings", JValue.arr [])]) "suggestions" =
      getField (.obj [("suggestions", JValue.arr [JValue.str "s1"])])
        "suggestions" :=
  C6_suggestions_passthrough
    (.obj [("suggestions", JValue.arr [JValue.str "s1"])]) "x" [] [] []
    (.obj [("suggestions", JValue.arr [JValue.str "s1"]),
      ("scene_tags", JValue.arr []), ("risk_context", JValue.str ""),
      ("confidence", JValue.int 0), ("applied_rules", JValue.arr []),
      ("findings", JValue.arr [])]) rfl

/-!  ### Scoring lemmas for C4 and C5  -/

theorem scoreFinding_ok {item f : JValue} (h : scoreFinding item = .ok f) :
    ∃ ikvs s l, item = .obj ikvs ∧ componentsInt item = .ok (s, l) ∧
      f = .obj (setKey ikvs "risk_score" (.int (s * l * 10))) := by
  unfold scoreFinding at h
  cases hc : componentsInt item with
  | error e => simp only [hc] at h; exact Except.noConfusion h
  | ok sl =>
    simp only [hc] at h
    cases item with
    | obj ikvs =>
      simp only [Except.ok.injEq] at h
      exact ⟨ikvs, sl.1, sl.2, rfl, rfl, h.symm⟩
    | null => exact Except.noConfusion h
    | bool b => exact Except.noConfusion h
    | int n => exact Except.noConfusion h
    | str s => exact Except.noConfusion h
    | arr xs => exact Except.noConfusion h

theorem componentsInt_setKey_riskScore (ikvs : List (String × JValue))
    (v : JValue) :
    componentsInt (.obj (setKey ikvs "risk_score" v)) =
      componentsInt (.obj ikvs) := by
  unfold componentsInt
  simp only [pyGetD, lookupKey_setKey_ne _ _
    (show "risk_score" ≠ "risk_score_components" by decide)]

/-- Claim C4: in a normally processed payload (dict payload, falsy
`error`), every finding of the result carries
`risk_score = int(severity) * int(likelihood) * 10`, computed by
`componentsInt` from its own `risk_score_components` with missing
components defaulting to `0` — any upstream `risk_score` value is
overwritten by this computed value; and, conversely, success implies
every payload finding's components were coercible, i.e. a non-coercible
component makes the call fail with a conversion exception instead of
producing a score. -/
theorem C4_risk_score (kvs : List (String × JValue)) (js : String)
    (tags packs : List String) (rules : List JValue) (r : JValue)
    (he : pyTruthy ((lookupKey kvs "error").getD .null) = false)
    (h : process_ai_response (some (.obj kvs)) js tags packs rules = .ok r) :
    (∀ f ∈ resultFindings r, ∃ s l : Int,
      componentsInt f = .ok (s, l) ∧
      getField f "risk_score" = some (.int (s * l * 10))) ∧
    (∀ items, pyIterList ((lookupKey kvs "findings").getD (.arr [])) =
        .ok items →
      ∀ g ∈ items, ∃ sl : Int × Int, componentsInt g = .ok sl) := by
  obtain ⟨trip, applied, items, scored, _, _, h3, h4, hr⟩ :=
    process_ok_inversion he h
  rw [lookupKey_enrichedKvs _ _ _ (by decide) (by decide) (by decide)
    (by decide)] at h3
  subst hr
  constructor
  · intro f hf
    simp only [resultFindings, lookupKey_setKey_same] at hf
    obtain ⟨item, _, hsf⟩ := mapExcept_ok_mem h4 f (mem_sortFindings.mp hf)
    obtain ⟨ikvs, s, l, hobj, hcomp, hfeq⟩ := scoreFinding_ok hsf
    subst hobj
    refine ⟨s, l, ?_, ?_⟩
    · rw [hfeq, componentsInt_setKey_riskScore]
      exact hcomp
    · rw [hfeq]
      show lookupKey _ "risk_score" = _
      rw [lookupKey_setKey_same]
  · intro items2 hitems2 g hg
    rw [hitems2] at h3
    cases Except.ok.inj h3
    obtain ⟨f, hgf⟩ := mapExcept_ok_forall h4 g hg
    obtain ⟨ikvs, s, l, _, hcomp, _⟩ := scoreFinding_ok hgf
    exact ⟨(s, l), hcomp⟩

/-- Claim C5: in a normally processed payload, the findings of the
result are exactly the stable descending sort (by `riskKey`, the
attached `risk_score`) of the scored findings: later findings never have
a larger risk score, and for each score value the findings carrying it
keep the relative order they had in the payload's findings sequence. -/
theorem C5_sorted_stable (kvs : List (String × JValue)) (js : String)
    (tags packs : List String) (rules : List JValue) (r : JValue)
    (items scored : List JValue)
    (he : pyTruthy ((lookupKey kvs "error").getD .null) = false)
    (h : process_ai_response (some (.obj kvs)) js tags packs rules = .ok r)
    (hitems : pyIterList ((lookupKey kvs "findings").getD (.arr [])) =
      .ok items)
    (hscored : mapExcept scoreFinding items = .ok scored) :
    resultFindings r = sortFindings scored ∧
    (resultFindings r).Pairwise riskGE ∧
    (∀ k : Int, (resultFindings r).filter (fun f => riskKey f == k) =
      scored.filter (fun f => riskKey f == k)) := by
  obtain ⟨trip, applied, items', scored', _, _, h3, h4, hr⟩ :=
    process_ok_inversion he h
  rw [lookupKey_enrichedKvs _ _ _ (by decide) (by decide) (by decide)
    (by decide), hitems] at h3
  cases Except.ok.inj h3
  rw [hscored] at h4
  cases Except.ok.inj h4
  subst hr
  refine ⟨?_, ?_, ?_⟩
  · simp [resultFindings, lookupKey_setKey_same]
  · simp only [resultFindings, lookupKey_setKey_same]
    exact sortFindings_pairwise scored
  · intro k
    simp only [resultFindings, lookupKey_setKey_same]
    exact filter_sortFindings k scored

/-- Witness for C4 at a payload whose single finding has `severity: 3`,
`likelihood: "2"` (a coercible string) and an upstream
`risk_score: 999`: the result's finding carries the recomputed score
`60`. -/
theorem C4_witness :
    ∃ s l : Int,
      componentsInt (.obj [("risk_score_components",
        JValue.obj [("severity", JValue.int 3), ("likelihood", JValue.str "2")]),
        ("risk_score", JValue.int 60)]) = .ok (s, l) ∧
      getField (.obj [("risk_score_components",
        JValue.obj [("severity", JValue.int 3), ("likelihood", JValue.str "2")]),
        ("risk_score", JValue.int 60)]) "risk_score" =
        some (.int (s * l * 10)) :=
  (C4_risk_score
    [("findings", JValue.arr [JValue.obj [("risk_score_components",
      JValue.obj [("severity", JValue.int 3), ("likelihood", JValue.str "2")]),
      ("risk_score", JValue.int 999)]])]
    "w" [] [] []
    (.obj [("findings", JValue.arr [JValue.obj [("risk_score_components",
        JValue.obj [("severity", JValue.int 3), ("likelihood", JValue.str "2")]),
        ("risk_score", JValue.int 60)]]),
      ("scene_tags", JValue.arr []), ("risk_context", JValue.str ""),
      ("confidence", JValue.int 0), ("applied_rules", JValue.arr [])])
    (by rfl) (by rfl)).1 _ (List.mem_singleton_self _)

/-- Witness for C5 at the spec's P2 example: payload findings scoring
`[60, 90, 60]` come out as `[90, 60 (first), 60 (second)]`, equal
scores keeping their payload order. -/
theorem C5_witness :
    resultFindings (.obj [("findings", JValue.arr [
      JValue.obj [("rule_id", JValue.str "b"), ("risk_score_components",
        JValue.obj [("severity", JValue.int 3), ("likelihood", JValue.int 3)]),
        ("risk_score", JValue.int 90)],
      JValue.obj [("rule_id", JValue.str "a"), ("risk_score_components",
        JValue.obj [("severity", JValue.int 3), ("likelihood", JValue.int 2)]),
        ("risk_score", JValue.int 60)],
      JValue.obj [("rule_id", JValue.str "c"), ("risk_score_components",
        JValue.obj [("severity", JValue.int 2), ("likelihood", JValue.int 3)]),
        ("risk_score", JValue.int 60)]]),
      ("scene_tags", JValue.arr []), ("risk_context", JValue.str ""),
      ("confidence", JValue.int 0), ("applied_rules", JValue.arr [])]) =
      sortFindings [
        JValue.obj [("rule_id", JValue.str "a"), ("risk_score_components",
          JValue.obj [("severity", JValue.int 3), ("likelihood", JValue.int 2)]),
          ("risk_score", JValue.int 60)],
        JValue.obj [("rule_id", JValue.str "b"), ("risk_score_components",
          JValue.obj [("severity", JValue.int 3), ("likelihood", JValue.int 3)]),
          ("risk_score", JValue.int 90)],
        JValue.obj [("rule_id", JValue.str "c"), ("risk_score_components",
          JValue.obj [("severity", JValue.int 2), ("likelihood", JValue.int 3)]),
          ("risk_score", JValue.int 60)]] ∧
    (resultFindings (.obj [("findings", JValue.arr [
      JValue.obj [("rule_id", JValue.str "b"), ("risk_score_components",
        JValue.obj [("severity", JValue.int 3), ("likelihood", JValue.int 3)]),
        ("risk_score", JValue.int 90)],
      JValue.obj [("rule_id", JValue.str "a"), ("risk_score_components",
        JValue.obj [("severity", JValue.int 3), ("likelihood", JValue.int 2)]),
        ("risk_score", JValue.int 60)],
      JValue.obj [("rule_id", JValue.str "c"), ("risk_score_components",
        JValue.obj [("severity", JValue.int 2), ("likelihood", JValue.int 3)]),
        ("risk_score", JValue.int 60)]]),
      ("scene_tags", JValue.arr []), ("risk_context", JValue.str ""),
      ("confidence", JValue.int 0), ("applied_rules", JValue.arr [])])).filter
        (fun f => riskKey f == 60) =
      (List.filter (fun f => riskKey f == 60) [
        JValue.obj [("rule_id", JValue.str "a"), ("risk_score_components",
          JValue.obj [("severity", JValue.int 3), ("likelihood", JValue.int 2)]),
          ("risk_score", JValue.int 60)],
        JValue.obj [("rule_id", JValue.str "b"), ("risk_score_components",
          JValue.obj [("severity", JValue.int 3), ("likelihood", JValue.int 3)]),
          ("risk_score", JValue.int 90)],
        JValue.obj [("rule_id", JValue.str "c"), ("risk_score_components",
          JValue.obj [("severity", JValue.int 2), ("likelihood", JValue.int 3)]),
          ("risk_score", JValue.int 60)]]) :=
  ⟨(C5_sorted_stable
      [("findings", JValue.arr [
        JValue.obj [("rule_id", JValue.str "a"), ("risk_score_components",
          JValue.obj [("severity", JValue.int 3), ("likelihood", JValue.int 2)])],
        JValue.obj [("rule_id", JValue.str "b"), ("risk_score_components",
          JValue.obj [("severity", JValue.int 3), ("likelihood", JValue.int 3)])],
        JValue.obj [("rule_id", JValue.str "c"), ("risk_score_components",
          JValue.obj [("severity", JValue.int 2), ("likelihood", JValue.int 3)])]])]
      "w" [] [] [] _ _ _ (by rfl) (by rfl) (by rfl) (by rfl)).1,
   (C5_sorted_stable
      [("findings", JValue.arr [
        JValue.obj [("rule_id", JValue.str "a"), ("risk_score_components",
          JValue.obj [("severity", JValue.int 3), ("likelihood", JValue.int 2)])],
        JValue.obj [("rule_id", JValue.str "b"), ("risk_score_components",
          JValue.obj [("severity", JValue.int 3), ("likelihood", JValue.int 3)])],
        JValue.obj [("rule_id", JValue.str "c"), ("risk_score_components",
          JValue.obj [("severity", JValue.int 2), ("likelihood", JValue.int 3)])]])]
      "w" [] [] [] _ _ _ (by rfl) (by rfl) (by rfl) (by rfl)).2.2 60⟩

/-!  ### The rule filter: reference definition and well-formedness  -/

/-- Rule dicts conforming to the documented rule shape (rule source
schema: `domain` a string, `detection_cues` a list of strings, both
optional). -/
def ruleWF : JValue → Bool
  | .obj kvs =>
    (match lookupKey kvs "domain" with
     | none => true
     | some (.str _) => true
     | some _ => false) &&
    (match lookupKey kvs "detection_cues" with
     | none => true
     | some (.arr cs) => cs.all fun c => match c with | .str _ => true | _ => false
     | some _ => false)
  | _ => false

/-- A rule dict whose `domain`, when present, is a string — the only
shape constraint C10 needs. -/
def domainWF : JValue → Bool
  | .obj kvs =>
    match lookupKey kvs "domain" with
    | none => true
    | some (.str _) => true
    | some _ => false
  | _ => false

/-- The rule's domain as a string, defaulting to `""` like
`rule.get('domain', '')`. -/
def specDomain : JValue → String
  | .obj kvs =>
    match lookupKey kvs "domain" with
    | some (.str s) => s
    | _ => ""
  | _ => ""

/-- The rule's detection cues as a list of strings (non-string entries
dropped; under `ruleWF` there are none). -/
def specCues : JValue → List String
  | .obj kvs =>
    match lookupKey kvs "detection_cues" with
    | some (.arr cs) =>
      cs.filterMap fun c => match c with | .str s => some s | _ => none
    | _ => []
  | _ => []

/-- Reference definition written from the claim's (and spec §4.2's)
wording, to be compared with `filter_rules_by_scene`: a rule is kept iff
some selected pack is a substring of its domain, or — only when the pack
condition did not include it — the scene tags are non-empty and some tag
is an exact member of its detection cues.  `List.filter` preserves input
order and keeps each occurrence at most once. -/
def filterRulesSpec (rules : List JValue)
    (scene_tags selected_packs : List String) : List JValue :=
  rules.filter fun rule =>
    (selected_packs.any fun p => strSubstr p (specDomain rule)) ||
    (!(selected_packs.any fun p => strSubstr p (specDomain rule)) &&
      (!scene_tags.isEmpty &&
        (scene_tags.any fun t => (specCues rule).contains t)))

theorem cues_any_eq_contains (t : String) :
    ∀ (cs : List JValue),
      (cs.all fun c => match c with | .str _ => true | _ => false) = true →
      (cs.any fun c => pyEqScalar (.str t) c) =
        (cs.filterMap fun c =>
          match c with | .str s => some s | _ => none).contains t := by
  intro cs
  induction cs with
  | nil => intro _; rfl
  | cons c cs ih =>
    intro h
    rw [List.all_cons, Bool.and_eq_true] at h
    cases c with
    | str s =>
      simp only [List.any_cons, List.filterMap_cons, List.contains_cons]
      rw [ih h.2]
      rfl
    | null => exact Bool.noConfusion h.1
    | bool b => exact Bool.noConfusion h.1
    | int n => exact Bool.noConfusion h.1
    | arr xs => exact Bool.noConfusion h.1
    | obj kvs => exact Bool.noConfusion h.1

/-- On a rule of the documented shape, the per-rule test of the source
filter computes exactly the reference predicate of `filterRulesSpec`. -/
theorem ruleMatches_wf (tags packs : List String) (rule : JValue)
    (hwf : ruleWF rule = true) :
    ruleMatches (.arr (tags.map JValue.str)) packs rule =
      .ok ((packs.any fun p => strSubstr p (specDomain rule)) ||
        (!(packs.any fun p => strSubstr p (specDomain rule)) &&
          (!tags.isEmpty &&
            (tags.any fun t => (specCues rule).contains t)))) := by
  cases rule with
  | obj kvs =>
    rw [ruleWF, Bool.and_eq_true] at hwf
    have hdom : (lookupKey kvs "domain").getD (.str "") =
        .str (specDomain (.obj kvs)) := by
      cases hd : lookupKey kvs "domain" with
      | none => simp [specDomain, hd]
      | some v =>
        rw [hd] at hwf
        cases v with
        | str s => simp [specDomain, hd]
        | null => exact Bool.noConfusion hwf.1
        | bool b => exact Bool.noConfusion hwf.1
        | int n => exact Bool.noConfusion hwf.1
        | arr xs => exact Bool.noConfusion hwf.1
        | obj m => exact Bool.noConfusion hwf.1
    unfold ruleMatches
    simp only [pyGetD, hdom]
    have hp : pyAnyM (fun pack => pyContains (.str (specDomain (.obj kvs)))
        (.str pack)) packs =
        .ok (packs.any fun p => strSubstr p (specDomain (.obj kvs))) :=
      pyAnyM_ok_of_all fun p _ => rfl
    rw [hp]
    cases hany : packs.any fun p => strSubstr p (specDomain (.obj kvs)) with
    | true => simp
    | false =>
      simp only [Bool.false_or, Bool.not_false, Bool.true_and]
      cases tags with
      | nil => rfl
      | cons t ts =>
        have hcues : ∃ cs, (lookupKey kvs "detection_cues").getD (.arr []) =
            .arr cs ∧
            (cs.all fun c => match c with | .str _ => true | _ => false) = true ∧
            specCues (.obj kvs) = cs.filterMap fun c =>
              match c with | .str s => some s | _ => none := by
          cases hd : lookupKey kvs "detection_cues" with
          | none => exact ⟨[], by simp [hd], rfl, by simp [specCues, hd]⟩
          | some v =>
            have h2 := hwf.2
            rw [hd] at h2
            cases v with
            | arr cs => exact ⟨cs, by simp [hd], h2, by simp [specCues, hd]⟩
            | null => exact Bool.noConfusion h2
            | bool b => exact Bool.noConfusion h2
            | int n => exact Bool.noConfusion h2
            | str s => exact Bool.noConfusion h2
            | obj m => exact Bool.noConfusion h2
        obtain ⟨cs, hcv, hcswf, hspec⟩ := hcues
        simp only [pyTruthy, pyIterList, pyGetD, hcv, List.map_cons,
          List.isEmpty_cons, Bool.not_false, if_true]
        have hq : pyAnyM (fun tag => pyContains (.arr cs) tag)
            (JValue.str t :: List.map JValue.str ts) =
            .ok ((JValue.str t :: List.map JValue.str ts).any fun j =>
              cs.any fun c => pyEqScalar j c) :=
          pyAnyM_ok_of_all fun j _ => rfl
        have hq2 : ((JValue.str t :: List.map JValue.str ts).any fun j =>
            cs.any fun c => pyEqScalar j c) =
            ((t :: ts).any fun t2 => (specCues (.obj kvs)).contains t2) := by
          rw [← List.map_cons, list_any_map]
          congr 1
          funext t2
          show (cs.any fun c => pyEqScalar (.str t2) c) = _
          rw [cues_any_eq_contains t2 cs hcswf, hspec]
        rw [hq, hq2]
        simp
  | null => exact Bool.noConfusion hwf
  | bool b => exact Bool.noConfusion hwf
  | int n => exact Bool.noConfusion hwf
  | str s => exact Bool.noConfusion hwf
  | arr xs => exact Bool.noConfusion hwf

theorem strSubstr_empty (s : String) : strSubstr "" s = true := by
  unfold strSubstr
  exact decide_eq_true List.nil_infix

theorem filter_eq_spec_aux (tags packs : List String) :
    ∀ rules : List JValue, (∀ rule ∈ rules, ruleWF rule = true) →
      filter_rules_by_scene rules (.arr (tags.map JValue.str)) packs =
        .ok (filterRulesSpec rules tags packs)
  | [], _ => rfl
  | r :: rs, hwf => by
    have hr := ruleMatches_wf tags packs r (hwf r (List.mem_cons_self r rs))
    have ih := filter_eq_spec_aux tags packs rs
      (fun x hx => hwf x (List.mem_cons_of_mem r hx))
    simp only [filter_rules_by_scene, hr, ih, filterRulesSpec, List.filter_cons]

/-- Claim C3: on rule dicts of the documented shape,
`filter_rules_by_scene` computes exactly the claim's reference
definition `filterRulesSpec` (a `List.filter`, hence input order is
preserved and each rule occurrence appears at most once), and with both
`scene_tags` and `selected_packs` empty the reference filter keeps
nothing. -/
theorem C3_filter_equals_reference (rules : List JValue)
    (tags packs : List String)
    (hwf : ∀ rule ∈ rules, ruleWF rule = true) :
    filter_rules_by_scene rules (.arr (tags.map JValue.str)) packs =
      .ok (filterRulesSpec rules tags packs) ∧
    (tags = [] → packs = [] → filterRulesSpec rules tags packs = []) := by
  refine ⟨filter_eq_spec_aux tags packs rules hwf, ?_⟩
  intro h1 h2
  subst h1
  subst h2
  simp [filterRulesSpec]

/-- Witness for C3 at the spec's P6/P7 examples: a pack-substring match
(`"Labor"` inside `"Labor Safety"`), a cue match
(`"high-altitude-work"`), and a non-matching rule. -/
theorem C3_witness :
    filter_rules_by_scene
      [.obj [("rule_id", JValue.str "r1"), ("domain", JValue.str "Labor Safety")],
       .obj [("rule_id", JValue.str "r2"), ("domain", JValue.str "Other"),
         ("detection_cues", JValue.arr [JValue.str "high-altitude-work"])],
       .obj [("rule_id", JValue.str "r3"), ("domain", JValue.str "Food")]]
      (.arr (["high-altitude-work"].map JValue.str)) ["Labor"] =
      .ok (filterRulesSpec
        [.obj [("rule_id", JValue.str "r1"), ("domain", JValue.str "Labor Safety")],
         .obj [("rule_id", JValue.str "r2"), ("domain", JValue.str "Other"),
           ("detection_cues", JValue.arr [JValue.str "high-altitude-work"])],
         .obj [("rule_id", JValue.str "r3"), ("domain", JValue.str "Food")]]
        ["high-altitude-work"] ["Labor"]) :=
  (C3_filter_equals_reference
    [.obj [("rule_id", JValue.str "r1"), ("domain", JValue.str "Labor Safety")],
     .obj [("rule_id", JValue.str "r2"), ("domain", JValue.str "Other"),
       ("detection_cues", JValue.arr [JValue.str "high-altitude-work"])],
     .obj [("rule_id", JValue.str "r3"), ("domain", JValue.str "Food")]]
    ["high-altitude-work"] ["Labor"] (by decide)).1

theorem emptyPack_ruleMatches (scene_tags : JValue) (packs : List String)
    (hmem : "" ∈ packs) (rule : JValue) (hwf : domainWF rule = true) :
    ruleMatches scene_tags packs rule = .ok true := by
  cases rule with
  | obj kvs =>
    have hdom : ∃ dom, (lookupKey kvs "domain").getD (.str "") = .str dom := by
      cases hd : lookupKey kvs "domain" with
      | none => exact ⟨"", by simp [hd]⟩
      | some v =>
        simp only [domainWF, hd] at hwf
        cases v with
        | str s => exact ⟨s, by simp [hd]⟩
        | null => exact Bool.noConfusion hwf
        | bool b => exact Bool.noConfusion hwf
        | int n => exact Bool.noConfusion hwf
        | arr xs => exact Bool.noConfusion hwf
        | obj m => exact Bool.noConfusion hwf
    obtain ⟨dom, hdom⟩ := hdom
    unfold ruleMatches
    simp only [pyGetD, hdom]
    have hp : pyAnyM (fun pack => pyContains (.str dom) (.str pack)) packs =
        .ok (packs.any fun p => strSubstr p dom) :=
      pyAnyM_ok_of_all fun p _ => rfl
    rw [hp, List.any_eq_true.mpr ⟨"", hmem, strSubstr_empty dom⟩]
  | null => exact Bool.noConfusion hwf
  | bool b => exact Bool.noConfusion hwf
  | int n => exact Bool.noConfusion hwf
  | str s => exact Bool.noConfusion hwf
  | arr xs => exact Bool.noConfusion hwf

/-- Claim C10, counterexample.  The claim says the empty-string pack
keeps every rule list unchanged regardless of each rule's domain.  For
a rule whose `domain` is a list, Python's `"" in []` is membership, not
substring containment, and is `False`; with empty scene tags the rule is
dropped, so the output is empty rather than the input list. -/
theorem C10_counterexample :
    filter_rules_by_scene [.obj [("domain", JValue.arr [])]] (.arr []) [""] =
      .ok [] ∧
    Except.ok (ε := PyError) ([] : List JValue) ≠
      .ok [JValue.obj [("domain", JValue.arr [])]] :=
  ⟨rfl, by intro h; injection h with h2; exact List.noConfusion h2⟩

/-- Claim C10 (amended): when the selected packs contain the empty
string, the filter keeps the whole rule list unchanged for every rule
list of the documented shape — dicts whose `domain`, when present, is a
string — independently of `scene_tags` and of the rules' domain strings
and cues: the empty string is a substring of every domain string, so
every rule pack-matches.  (A rule with a non-string domain can instead
be dropped or raise, see the counterexample.) -/
theorem C10_empty_pack_keeps_all (rules : List JValue) (scene_tags : JValue)
    (packs : List String) (hmem : "" ∈ packs)
    (hwf : ∀ rule ∈ rules, domainWF rule = true) :
    filter_rules_by_scene rules scene_tags packs = .ok rules := by
  induction rules with
  | nil => rfl
  | cons r rs ih =>
    have hr := emptyPack_ruleMatches scene_tags packs hmem r
      (hwf r (List.mem_cons_self r rs))
    simp only [filter_rules_by_scene, hr,
      ih (fun x hx => hwf x (List.mem_cons_of_mem r hx)), if_true]

/-- Witness for C10: an empty-string pack keeps both a rule with domain
`"ABC"` and a rule with no domain at all, with truthy non-iterable
`scene_tags`. -/
theorem C10_witness :
    filter_rules_by_scene
      [.obj [("rule_id", JValue.str "r1"), ("domain", JValue.str "ABC")],
       .obj []]
      (.int 5) [""] =
      .ok [.obj [("rule_id", JValue.str "r1"), ("domain", JValue.str "ABC")],
        .obj []] :=
  C10_empty_pack_keeps_all _ _ _ (by decide) (by decide)

end LegalImage
